import Mathlib

/-!
Shallow embedding of the crash-recoverable recording-and-transcription
pipeline of `src/App.tsx` (browser meeting-minutes tool).

External collaborators (the speech/LLM service, audio decoding, the
IndexedDB handle, the media devices) are modelled as explicit oracle
parameters: an external call that can throw is an `Option`-valued
oracle (`none` = the call threw).  Times and audio durations are
rationals (the source uses JS floats only for second counts and simple
arithmetic on them).  The IndexedDB chunk store (`dbManager`) is
modelled as the list of fragments it currently holds, in insertion
order; React `useState`/`useRef` cells become fields of `AppState`.
-/

/-- One raw audio fragment (a JS `Blob`): opaque bytes.  Only its
presence, identity and size are ever inspected by the core. -/
structure AudioFragment where
  bytes : List Nat
deriving Repr, DecidableEq

/-- One transcript entry, as held in the `transcript` React state:
`time` is seconds since session start, `text` the entry text. -/
structure TranscriptEntry where
  time : ℚ
  text : String
deriving Repr, DecidableEq

/-- The fixed placeholder text substituted for an empty or
whitespace-only transcription result. -/
def silencePlaceholder : String := "（無音または認識不能区間）"

/-- Result normalization shared by `transcribeAndIdentifySpeakers` and
`transcribeFileRaw`: an empty (JS-falsy) or whitespace-only result text
becomes the fixed placeholder. -/
def normalizeTranscription (text : String) : String :=
  if text = "" ∨ text.trim = "" then silencePlaceholder else text

/-- `transcribeFileRaw`: sends one audio chunk to the external model
and normalizes the returned text; a thrown external error is logged and
re-thrown (`none`). -/
def transcribeFileRaw (callResult : Option String) : Option String :=
  match callResult with
  | none => none
  | some text => some (normalizeTranscription text)

/-- `transcribeAndIdentifySpeakers`: same structure as
`transcribeFileRaw` (the memo only changes the prompt, not the result
handling): normalizes the returned text, re-throws a failure. -/
def transcribeAndIdentifySpeakers (callResult : Option String) : Option String :=
  match callResult with
  | none => none
  | some text => some (normalizeTranscription text)

/-- Observable events of a chunked dispatch run, in order: the start of
an external call for the window `[startTime, endTime)`, its successful
return, its failure (the thrown error), and an awaited
`setTimeout`-style pause of the given number of milliseconds. -/
inductive DispatchEvent where
  | callStart (startTime endTime : ℚ)
  | callReturned (startTime : ℚ)
  | callFailed (startTime : ℚ)
  | delay (ms : Nat)
deriving Repr, DecidableEq

/-- Result of running a chunked dispatch loop: the transcript entries
appended (in order), the ordered trace of observable events, and
whether the loop ran to completion (`ok = false` means an external call
threw and the surrounding `catch` ended the whole operation). -/
structure DispatchResult where
  transcript : List TranscriptEntry
  trace : List DispatchEvent
  ok : Bool
deriving Repr, DecidableEq

/-- `chunkSizeInSeconds` of both chunked dispatch loops. -/
def chunkSizeInSeconds : ℚ := 60

/-- The `while (currentTime < duration)` loop of `handleFileChange`:
each iteration cuts the window `[currentTime, min (currentTime + 60)
duration)`, sends it through `transcribeFileRaw`, appends one entry at
`time := startTime`, and — if another window remains — awaits a 5000 ms
pause before the next call.  A thrown call ends the loop (the `catch`
is outside the loop): entries of earlier windows are kept, the failed
window produces no entry, later windows are never dispatched. -/
def handleFileChangeLoop (call : ℚ → ℚ → Option String) (duration : ℚ)
    (currentTime : ℚ) : DispatchResult :=
  if _h : currentTime < duration then
    let startTime := currentTime
    let endTime := min (currentTime + chunkSizeInSeconds) duration
    match transcribeFileRaw (call startTime endTime) with
    | none =>
        { transcript := [],
          trace := [DispatchEvent.callStart startTime endTime,
                    DispatchEvent.callFailed startTime],
          ok := false }
    | some transcribedText =>
        let rest := handleFileChangeLoop call duration (currentTime + chunkSizeInSeconds)
        { transcript := { time := startTime, text := transcribedText } :: rest.transcript,
          trace := DispatchEvent.callStart startTime endTime ::
            DispatchEvent.callReturned startTime ::
            (if currentTime + chunkSizeInSeconds < duration
             then DispatchEvent.delay 5000 :: rest.trace
             else rest.trace),
          ok := rest.ok }
  else { transcript := [], trace := [], ok := true }
termination_by (⌈(duration - currentTime) / chunkSizeInSeconds⌉).toNat
decreasing_by
  have h60 : (0:ℚ) < chunkSizeInSeconds := by norm_num [chunkSizeInSeconds]
  have h1 : (0:ℚ) < (duration - currentTime) / chunkSizeInSeconds :=
    div_pos (by linarith) h60
  have h2 : (1:ℤ) ≤ ⌈(duration - currentTime) / chunkSizeInSeconds⌉ :=
    Int.ceil_pos.mpr h1
  have h3 : (duration - (currentTime + chunkSizeInSeconds)) / chunkSizeInSeconds
      = (duration - currentTime) / chunkSizeInSeconds - 1 := by
    field_simp
    ring
  rw [h3, Int.ceil_sub_one]
  omega

/-- The `while (currentTime < duration)` loop of
`handleProcessRecoveredData`: identical windowing and per-window call
as `handleFileChangeLoop`, appending entries at `time := currentTime`
(the window start), but with no pause between calls. -/
def handleProcessRecoveredDataLoop (call : ℚ → ℚ → Option String) (duration : ℚ)
    (currentTime : ℚ) : DispatchResult :=
  if _h : currentTime < duration then
    let startTime := currentTime
    let endTime := min (currentTime + chunkSizeInSeconds) duration
    match transcribeFileRaw (call startTime endTime) with
    | none =>
        { transcript := [],
          trace := [DispatchEvent.callStart startTime endTime,
                    DispatchEvent.callFailed startTime],
          ok := false }
    | some transcribedText =>
        let rest := handleProcessRecoveredDataLoop call duration (currentTime + chunkSizeInSeconds)
        { transcript := { time := currentTime, text := transcribedText } :: rest.transcript,
          trace := DispatchEvent.callStart startTime endTime ::
            DispatchEvent.callReturned startTime :: rest.trace,
          ok := rest.ok }
  else { transcript := [], trace := [], ok := true }
termination_by (⌈(duration - currentTime) / chunkSizeInSeconds⌉).toNat
decreasing_by
  have h60 : (0:ℚ) < chunkSizeInSeconds := by norm_num [chunkSizeInSeconds]
  have h1 : (0:ℚ) < (duration - currentTime) / chunkSizeInSeconds :=
    div_pos (by linarith) h60
  have h2 : (1:ℤ) ≤ ⌈(duration - currentTime) / chunkSizeInSeconds⌉ :=
    Int.ceil_pos.mpr h1
  have h3 : (duration - (currentTime + chunkSizeInSeconds)) / chunkSizeInSeconds
      = (duration - currentTime) / chunkSizeInSeconds - 1 := by
    field_simp
    ring
  rw [h3, Int.ceil_sub_one]
  omega

/-- The time windows a dispatch actually opened an external call for,
read off from the event trace. -/
def tracedWindows (events : List DispatchEvent) : List (ℚ × ℚ) :=
  events.filterMap (fun e =>
    match e with
    | DispatchEvent.callStart s en => some (s, en)
    | _ => none)

/-- `padStart` of JS strings with a single pad character: prepend
copies of `padChar` until the target length is reached. -/
def padStart (s : String) (targetLength : Nat) (padChar : Char) : String :=
  String.mk (List.replicate (targetLength - s.length) padChar) ++ s

/-- `formatTime`: renders a second count as `[mm:ss]` (JS `Math.floor`
on the seconds, float division by 60 floored for the minutes, JS `%`
i.e. truncated remainder for the seconds). -/
def formatTime (seconds : ℚ) : String :=
  let floorSeconds : ℤ := ⌊seconds⌋
  let minutes : ℤ := ⌊(floorSeconds : ℚ) / 60⌋
  let sec : ℤ := Int.tmod floorSeconds 60
  "[" ++ padStart (toString minutes) 2 '0' ++ ":" ++ padStart (toString sec) 2 '0' ++ "]"

/-- The React/ref state of the `App` component that the core handlers
read and write.  `store` is the content of the IndexedDB chunk store
(`dbManager`), in insertion order; `sentPayloads` records, in order,
the fragment set sent with each streaming external transcription call
(the observable request stream at the external interface). -/
structure AppState where
  isRecording : Bool
  showStopConfirm : Bool
  transcript : List TranscriptEntry
  summary : String
  memoText : String
  lastTranscriptText : String
  audioChunks : List AudioFragment
  store : List AudioFragment
  isTranscribing : Bool
  isLoadingAI : Bool
  isFileTranscriptComplete : Bool
  activeTab : Nat
  modalMessage : Option String
  recoveryInfo : Option Nat
  sentPayloads : List (List AudioFragment)
deriving Repr, DecidableEq

/-- `checkForCrashedData` (the startup recovery detection): reads all
chunks from the store and, if any are present, produces the recovery
offer with the chunk count; otherwise no offer. -/
def checkForCrashedData (store : List AudioFragment) : Option Nat :=
  if 0 < store.length then some store.length else none

/-- `toggleRecording`, start branch included.  While recording it only
raises the stop-confirmation dialog.  Otherwise it first awaits
`dbManager.clearAudioChunks()`, then acquires the microphone
(`getUserMediaOk` is the outcome of `getUserMedia`; on failure the
`catch` leaves the session idle), resets the in-memory accumulator,
the last-known transcript text, the transcript and the summary, and
starts the recorder. -/
def toggleRecording (getUserMediaOk : Bool) (s : AppState) : AppState :=
  if s.isRecording then { s with showStopConfirm := true }
  else
    let s1 := { s with store := [] }
    if getUserMediaOk then
      { s1 with
          audioChunks := [], lastTranscriptText := "",
          isFileTranscriptComplete := false, transcript := [], summary := "",
          activeTab := 0, isRecording := true }
    else s1

/-- Total byte size of a list of fragments (the size of the `Blob`
concatenating them). -/
def blobSize (chunks : List AudioFragment) : Nat :=
  (chunks.map (fun c => c.bytes.length)).sum

/-- The `ondataavailable` handler of the active recorder (one streaming
tick): a non-empty fragment is pushed to the in-memory accumulator and
appended to the store; if the accumulated audio is non-empty, the
entire accumulated fragment set is sent through
`transcribeAndIdentifySpeakers` (`call` is the external oracle, applied
to the payload and the current memo).  On success, the new text is the
returned full transcript minus its first `lastTranscriptText.length`
characters, appended as an entry at `elapsedTime` only when its trimmed
form is non-empty, and the last-known full transcript is updated.  On a
thrown call, an `[エラー]` entry is appended at `elapsedTime`. -/
def ondataavailable (call : List AudioFragment → String → Option String)
    (eData : AudioFragment) (elapsedTime : ℚ) (s : AppState) : AppState :=
  let s1 := if 0 < eData.bytes.length then
      { s with
          audioChunks := s.audioChunks ++ [eData], store := s.store ++ [eData] }
    else s
  if blobSize s1.audioChunks = 0 then s1
  else
    let s2 := { s1 with sentPayloads := s1.sentPayloads ++ [s1.audioChunks] }
    match transcribeAndIdentifySpeakers (call s1.audioChunks s1.memoText) with
    | some fullTranscript =>
        let newText := fullTranscript.drop s2.lastTranscriptText.length
        let s3 := if 0 < newText.trim.length
          then { s2 with transcript := s2.transcript ++ [{ time := elapsedTime, text := newText }] }
          else s2
        { s3 with lastTranscriptText := fullTranscript, isTranscribing := false }
    | none =>
        { s2 with
            transcript := s2.transcript ++ [{ time := elapsedTime, text := "[エラー]" }],
            isTranscribing := false }

/-- `handleFileChange`: resets transcript/summary, decodes the uploaded
file (`decodeDuration`, `none` if `decodeAudioData` throws), runs the
chunked loop from time 0, and on a loop abort shows the file-error
modal while keeping whatever entries were produced before the throw. -/
def handleFileChange (decodeDuration : AudioFragment → Option ℚ)
    (call : ℚ → ℚ → Option String) (file : AudioFragment) (s : AppState) : AppState :=
  let s0 := { s with
                transcript := [], summary := "", activeTab := 0,
                isTranscribing := true, isFileTranscriptComplete := false }
  match decodeDuration file with
  | none =>
      { s0 with
          modalMessage := some "ファイルの処理中にエラーが発生しました。お使いのブラウザが対応していない音声形式の可能性があります。",
          isTranscribing := false }
  | some duration =>
      let r := handleFileChangeLoop call duration 0
      if r.ok then
        { s0 with
            transcript := r.transcript, isFileTranscriptComplete := true,
            modalMessage := some "ファイルからの初期文字起こしが完了しました。「AIで清書する」ボタンで、メモの内容を反映した清書ができます。",
            isTranscribing := false }
      else
        { s0 with
            transcript := r.transcript,
            modalMessage := some "ファイルの処理中にエラーが発生しました。お使いのブラウザが対応していない音声形式の可能性があります。",
            isTranscribing := false }

/-- `handleRefineTranscript`: joins the current entry texts with
newlines, sends them with the memo to the refine oracle; on success
splits the refined text into lines, keeps the non-blank ones, and
re-pairs line `i` with the time of original entry `i` (falling back to
the last original entry's time, or 0, past the end); on a thrown call
only the error modal is shown. -/
def handleRefineTranscript (refineCall : String → String → Option String)
    (s : AppState) : AppState :=
  if s.transcript.length = 0 then
    { s with modalMessage := some "清書する文字起こしデータがありません。" }
  else
    let rawTranscript := String.intercalate "\n" (s.transcript.map (fun t => t.text))
    match refineCall rawTranscript s.memoText with
    | none =>
        { s with
            modalMessage := some "AIによる清書中にエラーが発生しました。",
            isTranscribing := false, isFileTranscriptComplete := false }
    | some refinedText =>
        let refinedLines := (refinedText.splitOn "\n").filter (fun line => line.trim ≠ "")
        let originalTranscript := s.transcript
        let newTranscript := refinedLines.enum.map (fun p =>
          let time := match originalTranscript.get? p.1 with
            | some e => e.time
            | none =>
              match originalTranscript.getLast? with
              | some e => e.time
              | none => 0
          ({ time := time, text := p.2 } : TranscriptEntry))
        { s with
            transcript := newTranscript,
            modalMessage := some "AIによる清書が完了しました。",
            isTranscribing := false, isFileTranscriptComplete := false }

/-- `generateSummary`: renders the transcript as timestamped plain
text; with nothing to summarize it only shows a modal.  Otherwise it
clears the summary, switches to the summary tab, and sends the prompt
(built from the plain transcript and the memo) to the oracle; the
result becomes the new summary, a thrown call shows the error modal. -/
def generateSummary (generateCall : String → String → Option String)
    (s : AppState) : AppState :=
  let plainTranscript := String.intercalate "\n\n"
    (s.transcript.map (fun item => formatTime item.time ++ " " ++ item.text))
  if plainTranscript = "" ∧ s.memoText = "" then
    { s with modalMessage := some "要約する文字起こしやメモがありません。" }
  else
    let s1 := { s with
                  isLoadingAI := true, summary := "", activeTab := 1,
                  modalMessage := some "AIによる議事録の生成を開始します..." }
    match generateCall plainTranscript s1.memoText with
    | some text =>
        { s1 with
            summary := text,
            modalMessage := some "議事録が完成しました！「AIによる議事録」タブでご確認ください。",
            isLoadingAI := false }
    | none =>
        { s1 with
            modalMessage := some "議事録の生成中にエラーが発生しました。",
            isLoadingAI := false }

/-- `handleProcessRecoveredData` (the resume path of a recovery offer):
hides the offer, reads the stored chunks, decodes them
(`decodeDuration`, `none` if decoding throws), runs the recovery
chunked loop from time 0 appending its entries to the current
transcript, and in the `finally` block always clears the store —
whether decoding failed, the loop aborted, or everything succeeded. -/
def handleProcessRecoveredData (decodeDuration : List AudioFragment → Option ℚ)
    (call : ℚ → ℚ → Option String) (s : AppState) : AppState :=
  let s0 := { s with recoveryInfo := none, isTranscribing := true }
  let recoveredChunks := s0.store
  match decodeDuration recoveredChunks with
  | none =>
      { s0 with
          modalMessage := some "復旧データの処理中にエラーが発生しました。",
          isTranscribing := false, store := [] }
  | some duration =>
      let r := handleProcessRecoveredDataLoop call duration 0
      if r.ok then
        { s0 with
            transcript := s0.transcript ++ r.transcript,
            isFileTranscriptComplete := true,
            modalMessage := some "復旧したデータの文字起こしが完了しました。",
            isTranscribing := false, store := [] }
      else
        { s0 with
            transcript := s0.transcript ++ r.transcript,
            modalMessage := some "復旧データの処理中にエラーが発生しました。",
            isTranscribing := false, store := [] }

/-- The discard button of the recovery dialog: clears the store and
hides the offer, transcribing nothing. -/
def discardRecoveredData (s : AppState) : AppState :=
  { s with store := [], recoveryInfo := none }

/-! ### Windowing arithmetic -/

/-- Number of windows the chunked loop still has to process from time
`t` (the quantity `Math.ceil((duration - t) / chunkSizeInSeconds)`,
clamped at 0). -/
def remainingWindows (duration t : ℚ) : Nat :=
  (⌈(duration - t) / chunkSizeInSeconds⌉).toNat

/-- `totalChunks` as computed by both chunked handlers:
`Math.ceil(duration / chunkSizeInSeconds)`. -/
def totalChunks (duration : ℚ) : Nat :=
  (⌈duration / chunkSizeInSeconds⌉).toNat

theorem totalChunks_eq_remainingWindows (duration : ℚ) :
    totalChunks duration = remainingWindows duration 0 := by
  simp [totalChunks, remainingWindows]

theorem remainingWindows_eq_zero_iff (duration t : ℚ) :
    remainingWindows duration t = 0 ↔ ¬ t < duration := by
  unfold remainingWindows
  rw [Int.toNat_eq_zero]
  constructor
  · intro h hlt
    have h60 : (0:ℚ) < chunkSizeInSeconds := by norm_num [chunkSizeInSeconds]
    have h1 : (0:ℚ) < (duration - t) / chunkSizeInSeconds :=
      div_pos (by linarith) h60
    have := Int.ceil_pos.mpr h1
    omega
  · intro h
    have h60 : (0:ℚ) < chunkSizeInSeconds := by norm_num [chunkSizeInSeconds]
    have h1 : (duration - t) / chunkSizeInSeconds ≤ 0 := by
      apply div_nonpos_of_nonpos_of_nonneg <;> [linarith; linarith]
    have h2 : (duration - t) / chunkSizeInSeconds ≤ ((0:ℤ):ℚ) := by exact_mod_cast h1
    exact Int.ceil_le.mpr h2

theorem remainingWindows_succ (duration t : ℚ) (h : t < duration) :
    remainingWindows duration t
      = remainingWindows duration (t + chunkSizeInSeconds) + 1 := by
  unfold remainingWindows
  have h60 : (0:ℚ) < chunkSizeInSeconds := by norm_num [chunkSizeInSeconds]
  have h1 : (0:ℚ) < (duration - t) / chunkSizeInSeconds :=
    div_pos (by linarith) h60
  have h2 : (1:ℤ) ≤ ⌈(duration - t) / chunkSizeInSeconds⌉ := Int.ceil_pos.mpr h1
  have h3 : (duration - (t + chunkSizeInSeconds)) / chunkSizeInSeconds
      = (duration - t) / chunkSizeInSeconds - 1 := by
    field_simp
    ring
  rw [h3, Int.ceil_sub_one]
  omega

/-! ### Unfolding equations for the dispatch loops -/

theorem handleFileChangeLoop_stop (call : ℚ → ℚ → Option String) {duration t : ℚ}
    (h : ¬ t < duration) :
    handleFileChangeLoop call duration t = { transcript := [], trace := [], ok := true } := by
  rw [handleFileChangeLoop]
  simp [h]

theorem handleFileChangeLoop_abort (call : ℚ → ℚ → Option String) {duration t : ℚ}
    (h : t < duration)
    (hc : call t (min (t + chunkSizeInSeconds) duration) = none) :
    handleFileChangeLoop call duration t =
      { transcript := [],
        trace := [DispatchEvent.callStart t (min (t + chunkSizeInSeconds) duration),
                  DispatchEvent.callFailed t],
        ok := false } := by
  rw [handleFileChangeLoop]
  simp [h, hc, transcribeFileRaw]

theorem handleFileChangeLoop_step (call : ℚ → ℚ → Option String) {duration t : ℚ}
    {text : String} (h : t < duration)
    (hc : call t (min (t + chunkSizeInSeconds) duration) = some text) :
    handleFileChangeLoop call duration t =
      { transcript := { time := t, text := normalizeTranscription text } ::
          (handleFileChangeLoop call duration (t + chunkSizeInSeconds)).transcript,
        trace := DispatchEvent.callStart t (min (t + chunkSizeInSeconds) duration) ::
          DispatchEvent.callReturned t ::
          (if t + chunkSizeInSeconds < duration
           then DispatchEvent.delay 5000 ::
             (handleFileChangeLoop call duration (t + chunkSizeInSeconds)).trace
           else (handleFileChangeLoop call duration (t + chunkSizeInSeconds)).trace),
        ok := (handleFileChangeLoop call duration (t + chunkSizeInSeconds)).ok } := by
  conv_lhs => rw [handleFileChangeLoop]
  simp [h, hc, transcribeFileRaw]

theorem handleProcessRecoveredDataLoop_stop (call : ℚ → ℚ → Option String) {duration t : ℚ}
    (h : ¬ t < duration) :
    handleProcessRecoveredDataLoop call duration t
      = { transcript := [], trace := [], ok := true } := by
  rw [handleProcessRecoveredDataLoop]
  simp [h]

theorem handleProcessRecoveredDataLoop_abort (call : ℚ → ℚ → Option String) {duration t : ℚ}
    (h : t < duration)
    (hc : call t (min (t + chunkSizeInSeconds) duration) = none) :
    handleProcessRecoveredDataLoop call duration t =
      { transcript := [],
        trace := [DispatchEvent.callStart t (min (t + chunkSizeInSeconds) duration),
                  DispatchEvent.callFailed t],
        ok := false } := by
  rw [handleProcessRecoveredDataLoop]
  simp [h, hc, transcribeFileRaw]

theorem handleProcessRecoveredDataLoop_step (call : ℚ → ℚ → Option String) {duration t : ℚ}
    {text : String} (h : t < duration)
    (hc : call t (min (t + chunkSizeInSeconds) duration) = some text) :
    handleProcessRecoveredDataLoop call duration t =
      { transcript := { time := t, text := normalizeTranscription text } ::
          (handleProcessRecoveredDataLoop call duration (t + chunkSizeInSeconds)).transcript,
        trace := DispatchEvent.callStart t (min (t + chunkSizeInSeconds) duration) ::
          DispatchEvent.callReturned t ::
          (handleProcessRecoveredDataLoop call duration (t + chunkSizeInSeconds)).trace,
        ok := (handleProcessRecoveredDataLoop call duration (t + chunkSizeInSeconds)).ok } := by
  conv_lhs => rw [handleProcessRecoveredDataLoop]
  simp [h, hc, transcribeFileRaw]

/-! ### Closed forms of the dispatch loops when every call succeeds -/

theorem handleFileChangeLoop_ok_closed (call : ℚ → ℚ → Option String) (f : ℚ → ℚ → String)
    (hcall : ∀ s e, call s e = some (f s e)) (duration : ℚ) :
    ∀ (n : Nat) (t : ℚ), remainingWindows duration t = n →
      (handleFileChangeLoop call duration t).ok = true := by
  intro n
  induction n with
  | zero =>
      intro t ht
      rw [handleFileChangeLoop_stop call ((remainingWindows_eq_zero_iff duration t).mp ht)]
  | succ n ih =>
      intro t ht
      have hlt : t < duration := by
        by_contra h
        rw [(remainingWindows_eq_zero_iff duration t).mpr h] at ht
        omega
      have hn : remainingWindows duration (t + chunkSizeInSeconds) = n := by
        have := remainingWindows_succ duration t hlt
        omega
      rw [handleFileChangeLoop_step call hlt (hcall _ _)]
      exact ih _ hn

theorem handleFileChangeLoop_transcript_closed (call : ℚ → ℚ → Option String)
    (f : ℚ → ℚ → String) (hcall : ∀ s e, call s e = some (f s e)) (duration : ℚ) :
    ∀ (n : Nat) (t : ℚ), remainingWindows duration t = n →
      (handleFileChangeLoop call duration t).transcript =
        (List.range n).map (fun k =>
          { time := t + k * chunkSizeInSeconds,
            text := normalizeTranscription
              (f (t + k * chunkSizeInSeconds)
                 (min (t + k * chunkSizeInSeconds + chunkSizeInSeconds) duration)) }) := by
  intro n
  induction n with
  | zero =>
      intro t ht
      rw [handleFileChangeLoop_stop call ((remainingWindows_eq_zero_iff duration t).mp ht)]
      simp
  | succ n ih =>
      intro t ht
      have hlt : t < duration := by
        by_contra h
        rw [(remainingWindows_eq_zero_iff duration t).mpr h] at ht
        omega
      have hn : remainingWindows duration (t + chunkSizeInSeconds) = n := by
        have := remainingWindows_succ duration t hlt
        omega
      rw [handleFileChangeLoop_step call hlt (hcall _ _)]
      simp only [ih _ hn, List.range_succ_eq_map, List.map_cons, List.map_map]
      congr 1
      · simp
      · apply List.map_congr_left
        intro k _
        simp only [Function.comp_apply]
        have e1 : t + chunkSizeInSeconds + (k : ℚ) * chunkSizeInSeconds
            = t + ((k : ℚ) + 1) * chunkSizeInSeconds := by ring
        have e2 : ((Nat.succ k : ℕ) : ℚ) = (k : ℚ) + 1 := by push_cast; ring
        rw [e1, e2]

theorem handleFileChangeLoop_trace_closed (call : ℚ → ℚ → Option String) (f : ℚ → ℚ → String)
    (hcall : ∀ s e, call s e = some (f s e)) (duration : ℚ) :
    ∀ (n : Nat) (t : ℚ), remainingWindows duration t = n →
      (handleFileChangeLoop call duration t).trace =
        ((List.range n).map (fun (k : Nat) =>
          [DispatchEvent.callStart (t + k * chunkSizeInSeconds)
             (min (t + k * chunkSizeInSeconds + chunkSizeInSeconds) duration),
           DispatchEvent.callReturned (t + k * chunkSizeInSeconds)]
          ++ if k + 1 < n then [DispatchEvent.delay 5000] else [])).flatten := by
  intro n
  induction n with
  | zero =>
      intro t ht
      rw [handleFileChangeLoop_stop call ((remainingWindows_eq_zero_iff duration t).mp ht)]
      simp
  | succ n ih =>
      intro t ht
      have hlt : t < duration := by
        by_contra h
        rw [(remainingWindows_eq_zero_iff duration t).mpr h] at ht
        omega
      have hn : remainingWindows duration (t + chunkSizeInSeconds) = n := by
        have := remainingWindows_succ duration t hlt
        omega
      have hdelay : (t + chunkSizeInSeconds < duration) ↔ 0 < n := by
        have h0 := remainingWindows_eq_zero_iff duration (t + chunkSizeInSeconds)
        rw [hn] at h0
        constructor
        · intro h
          rcases Nat.eq_zero_or_pos n with h1 | h1
          · exact absurd h (h0.mp h1)
          · exact h1
        · intro h
          by_contra h2
          have := h0.mpr h2
          omega
      rw [handleFileChangeLoop_step call hlt (hcall _ _)]
      simp only [ih _ hn, List.range_succ_eq_map, List.map_cons, List.map_map,
        List.flatten_cons]
      rcases Nat.eq_zero_or_pos n with h1 | h1
      · subst h1
        have h2 : ¬ (t + chunkSizeInSeconds < duration) := by simp [hdelay]
        simp [h2]
      · have hd : t + chunkSizeInSeconds < duration := hdelay.mpr h1
        have h2 : 0 + 1 < n + 1 := by omega
        simp only [hd, if_true, h2, Nat.cast_zero, zero_mul, add_zero, List.cons_append,
          List.nil_append, List.singleton_append, List.cons.injEq, true_and]
        congr 1
        apply List.map_congr_left
        intro k _
        simp only [Function.comp_apply, Nat.succ_eq_add_one]
        have e1 : t + chunkSizeInSeconds + (k : ℚ) * chunkSizeInSeconds
            = t + ((k : ℚ) + 1) * chunkSizeInSeconds := by ring
        have e2 : (((k + 1 : Nat)) : ℚ) = (k : ℚ) + 1 := by push_cast; ring
        have e3 : (k + 1 + 1 < n + 1) ↔ (k + 1 < n) := by omega
        rw [e2]
        simp only [e1]
        simp [e3]

theorem handleProcessRecoveredDataLoop_ok_closed (call : ℚ → ℚ → Option String)
    (f : ℚ → ℚ → String) (hcall : ∀ s e, call s e = some (f s e)) (duration : ℚ) :
    ∀ (n : Nat) (t : ℚ), remainingWindows duration t = n →
      (handleProcessRecoveredDataLoop call duration t).ok = true := by
  intro n
  induction n with
  | zero =>
      intro t ht
      rw [handleProcessRecoveredDataLoop_stop call
        ((remainingWindows_eq_zero_iff duration t).mp ht)]
  | succ n ih =>
      intro t ht
      have hlt : t < duration := by
        by_contra h
        rw [(remainingWindows_eq_zero_iff duration t).mpr h] at ht
        omega
      have hn : remainingWindows duration (t + chunkSizeInSeconds) = n := by
        have := remainingWindows_succ duration t hlt
        omega
      rw [handleProcessRecoveredDataLoop_step call hlt (hcall _ _)]
      exact ih _ hn

theorem handleProcessRecoveredDataLoop_transcript_closed (call : ℚ → ℚ → Option String)
    (f : ℚ → ℚ → String) (hcall : ∀ s e, call s e = some (f s e)) (duration : ℚ) :
    ∀ (n : Nat) (t : ℚ), remainingWindows duration t = n →
      (handleProcessRecoveredDataLoop call duration t).transcript =
        (List.range n).map (fun (k : Nat) =>
          { time := t + k * chunkSizeInSeconds,
            text := normalizeTranscription
              (f (t + k * chunkSizeInSeconds)
                 (min (t + k * chunkSizeInSeconds + chunkSizeInSeconds) duration)) }) := by
  intro n
  induction n with
  | zero =>
      intro t ht
      rw [handleProcessRecoveredDataLoop_stop call
        ((remainingWindows_eq_zero_iff duration t).mp ht)]
      simp
  | succ n ih =>
      intro t ht
      have hlt : t < duration := by
        by_contra h
        rw [(remainingWindows_eq_zero_iff duration t).mpr h] at ht
        omega
      have hn : remainingWindows duration (t + chunkSizeInSeconds) = n := by
        have := remainingWindows_succ duration t hlt
        omega
      rw [handleProcessRecoveredDataLoop_step call hlt (hcall _ _)]
      simp only [ih _ hn, List.range_succ_eq_map, List.map_cons, List.map_map]
      congr 1
      · simp
      · apply List.map_congr_left
        intro k _
        simp only [Function.comp_apply]
        have e1 : t + chunkSizeInSeconds + (k : ℚ) * chunkSizeInSeconds
            = t + ((k : ℚ) + 1) * chunkSizeInSeconds := by ring
        have e2 : ((Nat.succ k : ℕ) : ℚ) = (k : ℚ) + 1 := by push_cast; ring
        rw [e1, e2]

theorem handleProcessRecoveredDataLoop_trace_closed (call : ℚ → ℚ → Option String)
    (f : ℚ → ℚ → String) (hcall : ∀ s e, call s e = some (f s e)) (duration : ℚ) :
    ∀ (n : Nat) (t : ℚ), remainingWindows duration t = n →
      (handleProcessRecoveredDataLoop call duration t).trace =
        ((List.range n).map (fun (k : Nat) =>
          [DispatchEvent.callStart (t + k * chunkSizeInSeconds)
             (min (t + k * chunkSizeInSeconds + chunkSizeInSeconds) duration),
           DispatchEvent.callReturned (t + k * chunkSizeInSeconds)])).flatten := by
  intro n
  induction n with
  | zero =>
      intro t ht
      rw [handleProcessRecoveredDataLoop_stop call
        ((remainingWindows_eq_zero_iff duration t).mp ht)]
      simp
  | succ n ih =>
      intro t ht
      have hlt : t < duration := by
        by_contra h
        rw [(remainingWindows_eq_zero_iff duration t).mpr h] at ht
        omega
      have hn : remainingWindows duration (t + chunkSizeInSeconds) = n := by
        have := remainingWindows_succ duration t hlt
        omega
      rw [handleProcessRecoveredDataLoop_step call hlt (hcall _ _)]
      simp only [ih _ hn, List.range_succ_eq_map, List.map_cons, List.map_map,
        List.flatten_cons]
      simp only [Nat.cast_zero, zero_mul, add_zero, List.cons_append, List.nil_append,
        List.singleton_append, List.cons.injEq, true_and]
      congr 1
      apply List.map_congr_left
      intro k _
      simp only [Function.comp_apply, Nat.succ_eq_add_one]
      have e1 : t + chunkSizeInSeconds + (k : ℚ) * chunkSizeInSeconds
          = t + ((k : ℚ) + 1) * chunkSizeInSeconds := by ring
      have e2 : (((k + 1 : Nat)) : ℚ) = (k : ℚ) + 1 := by push_cast; ring
      rw [e2]
      simp only [e1]

theorem handleFileChangeLoop_abort_closed (call : ℚ → ℚ → Option String) (f : ℚ → ℚ → String)
    (duration : ℚ) :
    ∀ (k : Nat) (t : ℚ),
      (∀ j : Nat, j < k → call (t + j * chunkSizeInSeconds)
          (min (t + j * chunkSizeInSeconds + chunkSizeInSeconds) duration)
          = some (f (t + j * chunkSizeInSeconds)
              (min (t + j * chunkSizeInSeconds + chunkSizeInSeconds) duration))) →
      call (t + k * chunkSizeInSeconds)
          (min (t + k * chunkSizeInSeconds + chunkSizeInSeconds) duration) = none →
      t + k * chunkSizeInSeconds < duration →
      (handleFileChangeLoop call duration t).transcript =
          (List.range k).map (fun (j : Nat) =>
            { time := t + j * chunkSizeInSeconds,
              text := normalizeTranscription
                (f (t + j * chunkSizeInSeconds)
                   (min (t + j * chunkSizeInSeconds + chunkSizeInSeconds) duration)) })
        ∧ (handleFileChangeLoop call duration t).ok = false := by
  intro k
  induction k with
  | zero =>
      intro t hsucc hfail hlt
      simp only [Nat.cast_zero, zero_mul, add_zero] at hfail hlt
      rw [handleFileChangeLoop_abort call hlt hfail]
      simp
  | succ k ih =>
      intro t hsucc hfail hlt
      have hW : (0:ℚ) < chunkSizeInSeconds := by norm_num [chunkSizeInSeconds]
      have hlt0 : t < duration := by
        have hk : (0:ℚ) ≤ ((k + 1 : Nat) : ℚ) * chunkSizeInSeconds := by positivity
        linarith
      have hc0 := hsucc 0 (by omega)
      simp only [Nat.cast_zero, zero_mul, add_zero] at hc0
      have hsucc' : ∀ j : Nat, j < k →
          call (t + chunkSizeInSeconds + j * chunkSizeInSeconds)
            (min (t + chunkSizeInSeconds + j * chunkSizeInSeconds + chunkSizeInSeconds) duration)
          = some (f (t + chunkSizeInSeconds + j * chunkSizeInSeconds)
              (min (t + chunkSizeInSeconds + j * chunkSizeInSeconds + chunkSizeInSeconds)
                duration)) := by
        intro j hj
        have h := hsucc (j + 1) (by omega)
        have e : t + ((j + 1 : Nat) : ℚ) * chunkSizeInSeconds
            = t + chunkSizeInSeconds + (j : ℚ) * chunkSizeInSeconds := by push_cast; ring
        rw [e] at h
        exact h
      have hfail' : call (t + chunkSizeInSeconds + k * chunkSizeInSeconds)
          (min (t + chunkSizeInSeconds + k * chunkSizeInSeconds + chunkSizeInSeconds) duration)
          = none := by
        have e : t + ((k + 1 : Nat) : ℚ) * chunkSizeInSeconds
            = t + chunkSizeInSeconds + (k : ℚ) * chunkSizeInSeconds := by push_cast; ring
        rw [e] at hfail
        exact hfail
      have hlt' : t + chunkSizeInSeconds + (k : ℚ) * chunkSizeInSeconds < duration := by
        have e : t + ((k + 1 : Nat) : ℚ) * chunkSizeInSeconds
            = t + chunkSizeInSeconds + (k : ℚ) * chunkSizeInSeconds := by push_cast; ring
        rw [e] at hlt
        exact hlt
      obtain ⟨ihT, ihOk⟩ := ih (t + chunkSizeInSeconds) hsucc' hfail' hlt'
      rw [handleFileChangeLoop_step call hlt0 hc0]
      refine ⟨?_, by simpa using ihOk⟩
      simp only [ihT, List.range_succ_eq_map, List.map_cons, List.map_map]
      congr 1
      · simp
      · apply List.map_congr_left
        intro j _
        simp only [Function.comp_apply]
        have e1 : t + chunkSizeInSeconds + (j : ℚ) * chunkSizeInSeconds
            = t + ((j : ℚ) + 1) * chunkSizeInSeconds := by ring
        have e2 : ((Nat.succ j : ℕ) : ℚ) = (j : ℚ) + 1 := by push_cast; ring
        rw [e1, e2]

theorem tracedWindows_flatten (L : List (List DispatchEvent)) :
    tracedWindows L.flatten = (L.map tracedWindows).flatten := by
  induction L with
  | nil => simp [tracedWindows]
  | cons x L ih =>
      simp only [List.flatten_cons, List.map_cons, tracedWindows, List.filterMap_append]
      rw [← tracedWindows, ← tracedWindows, ih]

theorem tracedWindows_fileBlock (s e : ℚ) (cond : Prop) [Decidable cond] :
    tracedWindows ([DispatchEvent.callStart s e, DispatchEvent.callReturned s]
      ++ if cond then [DispatchEvent.delay 5000] else []) = [(s, e)] := by
  by_cases h : cond <;> simp [h, tracedWindows]

theorem tracedWindows_recoveryBlock (s e : ℚ) :
    tracedWindows [DispatchEvent.callStart s e, DispatchEvent.callReturned s] = [(s, e)] := by
  simp [tracedWindows]

theorem flatten_map_singleton {α β : Type} (l : List α) (g : α → β) :
    (l.map (fun a => [g a])).flatten = l.map g := by
  induction l with
  | nil => simp
  | cons a l ih => simp [ih]

/-- Membership of a time `x` in window `k` of a duration-`duration`
dispatch: `k * 60 ≤ x < min (k * 60 + 60) duration`.  Every point of
`[0, duration)` lies in exactly one window. -/
theorem window_coverage (duration : ℚ) (x : ℚ) (hx0 : 0 ≤ x) (hxd : x < duration) :
    ∃! k : Nat, k < totalChunks duration ∧
      (k : ℚ) * chunkSizeInSeconds ≤ x ∧
      x < min ((k : ℚ) * chunkSizeInSeconds + chunkSizeInSeconds) duration := by
  have hW : (0:ℚ) < chunkSizeInSeconds := by norm_num [chunkSizeInSeconds]
  have hfl0 : (0:ℤ) ≤ ⌊x / chunkSizeInSeconds⌋ :=
    Int.floor_nonneg.mpr (div_nonneg hx0 (le_of_lt hW))
  have hcast : ((⌊x / chunkSizeInSeconds⌋.toNat : ℕ) : ℚ)
      = ((⌊x / chunkSizeInSeconds⌋ : ℤ) : ℚ) := by
    exact_mod_cast congrArg (fun z : ℤ => (z : ℚ)) (Int.toNat_of_nonneg hfl0)
  refine ⟨(⌊x / chunkSizeInSeconds⌋).toNat, ⟨?_, ?_, ?_⟩, ?_⟩
  · have hlt : ⌊x / chunkSizeInSeconds⌋ < ⌈duration / chunkSizeInSeconds⌉ := by
      by_contra hcon
      push_neg at hcon
      have h1 : duration / chunkSizeInSeconds
          ≤ ((⌈duration / chunkSizeInSeconds⌉ : ℤ) : ℚ) := Int.le_ceil _
      have h2 : ((⌈duration / chunkSizeInSeconds⌉ : ℤ) : ℚ)
          ≤ ((⌊x / chunkSizeInSeconds⌋ : ℤ) : ℚ) := by exact_mod_cast hcon
      have h3 : ((⌊x / chunkSizeInSeconds⌋ : ℤ) : ℚ) ≤ x / chunkSizeInSeconds :=
        Int.floor_le _
      have h4 : duration / chunkSizeInSeconds ≤ x / chunkSizeInSeconds :=
        le_trans h1 (le_trans h2 h3)
      have h5 : duration ≤ x := (div_le_div_iff_of_pos_right hW).mp h4
      linarith
    unfold totalChunks
    omega
  · rw [hcast]
    exact (le_div_iff₀ hW).mp (Int.floor_le _)
  · refine lt_min ?_ hxd
    rw [hcast]
    have h1 : x / chunkSizeInSeconds < ((⌊x / chunkSizeInSeconds⌋ : ℤ) : ℚ) + 1 :=
      Int.lt_floor_add_one _
    have h2 : x < (((⌊x / chunkSizeInSeconds⌋ : ℤ) : ℚ) + 1) * chunkSizeInSeconds :=
      (div_lt_iff₀ hW).mp h1
    linarith [h2]
  · intro y hy
    obtain ⟨hyn, hyle, hylt⟩ := hy
    have hylt' : x < (y : ℚ) * chunkSizeInSeconds + chunkSizeInSeconds :=
      lt_of_lt_of_le hylt (min_le_left _ _)
    have h1 : ((y : ℕ) : ℚ) ≤ x / chunkSizeInSeconds := (le_div_iff₀ hW).mpr hyle
    have h2 : x / chunkSizeInSeconds < ((y : ℕ) : ℚ) + 1 := by
      rw [div_lt_iff₀ hW]
      linarith [hylt']
    have hfloor : ⌊x / chunkSizeInSeconds⌋ = (y : ℤ) := by
      rw [Int.floor_eq_iff]
      constructor
      · exact_mod_cast h1
      · exact_mod_cast h2
    omega

/-! ### Initial component state -/

/-- The initial values of the component's `useState`/`useRef` cells (a
fresh page load with an empty durable store). -/
def initialState : AppState :=
  { isRecording := false, showStopConfirm := false, transcript := [], summary := "",
    memoText := "", lastTranscriptText := "", audioChunks := [], store := [],
    isTranscribing := false, isLoadingAI := false, isFileTranscriptComplete := false,
    activeTab := 0, modalMessage := none, recoveryInfo := none, sentPayloads := [] }

/-! ### C4 -/

/-- C4: starting a new capture session (`toggleRecording` from a
non-recording state, with the microphone successfully acquired) always
clears the durable chunk store before the first fragment of the new
session can be appended: at the moment recording begins the store is
empty, and the in-memory accumulator is reset as well, so the store
holds chunks from at most one logical session at a time. -/
theorem clear_on_new_session (s : AppState) (h : s.isRecording = false) :
    (toggleRecording true s).store = []
    ∧ (toggleRecording true s).isRecording = true
    ∧ (toggleRecording true s).audioChunks = [] := by
  simp [toggleRecording, h]

/-- Witness for C4: a state with two stale chunks in the store. -/
theorem clear_on_new_session_witness :
    ({ initialState with store := [⟨[1, 2]⟩, ⟨[3]⟩] } : AppState).isRecording = false
    ∧ ((toggleRecording true { initialState with store := [⟨[1, 2]⟩, ⟨[3]⟩] }).store = []
      ∧ (toggleRecording true { initialState with store := [⟨[1, 2]⟩, ⟨[3]⟩] }).isRecording = true
      ∧ (toggleRecording true { initialState with store := [⟨[1, 2]⟩, ⟨[3]⟩] }).audioChunks = []) :=
  ⟨rfl, clear_on_new_session _ rfl⟩

/-! ### C3 -/

/-- C3: after either resolution path of a detected recovery offer —
resume (`handleProcessRecoveredData`, whether decoding fails, the
transcription loop aborts, or everything succeeds) or discard — the
durable chunk store is cleared, so a subsequent detection
(`checkForCrashedData`) on the same store returns no offer. -/
theorem recovery_resolves_once (decodeDuration : List AudioFragment → Option ℚ)
    (call : ℚ → ℚ → Option String) (s : AppState) :
    (handleProcessRecoveredData decodeDuration call s).store = []
    ∧ checkForCrashedData (handleProcessRecoveredData decodeDuration call s).store = none
    ∧ (discardRecoveredData s).store = []
    ∧ checkForCrashedData (discardRecoveredData s).store = none := by
  refine ⟨?_, ?_, ?_, ?_⟩
  · unfold handleProcessRecoveredData
    cases hdec : decodeDuration s.store with
    | none => simp [hdec]
    | some d =>
        by_cases hok : (handleProcessRecoveredDataLoop call d 0).ok <;>
          simp [hdec, hok]
  · unfold handleProcessRecoveredData
    cases hdec : decodeDuration s.store with
    | none => simp [hdec, checkForCrashedData]
    | some d =>
        by_cases hok : (handleProcessRecoveredDataLoop call d 0).ok <;>
          simp [hdec, hok, checkForCrashedData]
  · simp [discardRecoveredData]
  · simp [discardRecoveredData, checkForCrashedData]

/-! ### C5 -/

/-- C5: for a non-empty transcript and a successful refine call, the
refine operation splits the refined text into lines that are non-empty
after trimming, and pairs line `i` with the time of original entry `i`
when `i` is in range, and with the time of the last original entry
otherwise. -/
theorem refine_line_time_pairing (refineCall : String → String → Option String)
    (s : AppState) (hne : s.transcript ≠ []) (refinedText : String)
    (hcall : refineCall (String.intercalate "\n" (s.transcript.map (fun t => t.text)))
        s.memoText = some refinedText) :
    (handleRefineTranscript refineCall s).transcript.length
        = ((refinedText.splitOn "\n").filter (fun line => line.trim ≠ "")).length
    ∧ ∀ i : Nat,
        ∀ hi : i < ((refinedText.splitOn "\n").filter (fun line => line.trim ≠ "")).length,
        (handleRefineTranscript refineCall s).transcript[i]?
          = some { time := if h : i < s.transcript.length
                           then (s.transcript.get ⟨i, h⟩).time
                           else (s.transcript.getLast hne).time,
                   text := ((refinedText.splitOn "\n").filter
                     (fun line => line.trim ≠ "")).get ⟨i, hi⟩ } := by
  have hlen0 : ¬ s.transcript.length = 0 := by
    simpa [List.length_eq_zero] using hne
  unfold handleRefineTranscript
  simp only [hlen0, if_false, hcall]
  constructor
  · simp
  · intro i hi
    simp only [List.getElem?_map, List.getElem?_enum, List.getElem?_eq_getElem, hi,
      Option.map_some]
    by_cases h : i < s.transcript.length
    · rw [dif_pos h]
      simp [List.getElem?_eq_getElem h]
    · rw [dif_neg h]
      have hg : s.transcript[i]? = none := by
        rw [List.getElem?_eq_none_iff]
        omega
      have hl : s.transcript.getLast? = some (s.transcript.getLast hne) :=
        List.getLast?_eq_getLast s.transcript hne
      simp [hg, hl]

/-- Witness for C5: originals at times 0, 5, 9 refined into four
non-blank lines; line 3 (0-based) reuses the last original time 9. -/
theorem refine_line_time_pairing_witness :
    (({ initialState with transcript := [⟨0, "a"⟩, ⟨5, "b"⟩, ⟨9, "c"⟩] } : AppState).transcript ≠ [])
    ∧ ((fun (_ : String) (_ : String) => some "l1\nl2\nl3\nl4")
        (String.intercalate "\n"
          (({ initialState with transcript := [⟨0, "a"⟩, ⟨5, "b"⟩, ⟨9, "c"⟩] } : AppState).transcript.map
            (fun t => t.text)))
        ({ initialState with transcript := [⟨0, "a"⟩, ⟨5, "b"⟩, ⟨9, "c"⟩] } : AppState).memoText
        = some "l1\nl2\nl3\nl4")
    ∧ ((handleRefineTranscript (fun _ _ => some "l1\nl2\nl3\nl4")
          { initialState with transcript := [⟨0, "a"⟩, ⟨5, "b"⟩, ⟨9, "c"⟩] }).transcript.length
        = ((("l1\nl2\nl3\nl4").splitOn "\n").filter (fun line => line.trim ≠ "")).length
      ∧ ∀ i : Nat,
          ∀ hi : i < ((("l1\nl2\nl3\nl4").splitOn "\n").filter (fun line => line.trim ≠ "")).length,
          (handleRefineTranscript (fun _ _ => some "l1\nl2\nl3\nl4")
            { initialState with transcript := [⟨0, "a"⟩, ⟨5, "b"⟩, ⟨9, "c"⟩] }).transcript[i]?
            = some { time := if h : i < ({ initialState with
                         transcript := [⟨0, "a"⟩, ⟨5, "b"⟩, ⟨9, "c"⟩] } : AppState).transcript.length
                       then (({ initialState with
                         transcript := [⟨0, "a"⟩, ⟨5, "b"⟩, ⟨9, "c"⟩] } : AppState).transcript.get ⟨i, h⟩).time
                       else (({ initialState with
                         transcript := [⟨0, "a"⟩, ⟨5, "b"⟩, ⟨9, "c"⟩] } : AppState).transcript.getLast
                           (by decide)).time,
                     text := ((("l1\nl2\nl3\nl4").splitOn "\n").filter
                       (fun line => line.trim ≠ "")).get ⟨i, hi⟩ }) :=
  ⟨by decide, rfl,
    refine_line_time_pairing (fun _ _ => some "l1\nl2\nl3\nl4")
      { initialState with transcript := [⟨0, "a"⟩, ⟨5, "b"⟩, ⟨9, "c"⟩] }
      (by decide) "l1\nl2\nl3\nl4" rfl⟩

/-! ### C7 -/

/-- C7: a thrown refine call leaves the transcript (and the summary)
exactly as they were and reports the failure of that operation; a
thrown summarize call leaves the transcript untouched and reports the
failure.  (`hplain` states that the summarize guard passes, i.e. there
is something to summarize.) -/
theorem refine_summarize_failure_isolated
    (refineCall : String → String → Option String)
    (generateCall : String → String → Option String) (s : AppState)
    (hne : s.transcript ≠ [])
    (hrf : refineCall (String.intercalate "\n" (s.transcript.map (fun t => t.text)))
        s.memoText = none)
    (hplain : ¬ (String.intercalate "\n\n"
        (s.transcript.map (fun item => formatTime item.time ++ " " ++ item.text)) = ""
        ∧ s.memoText = ""))
    (hgf : generateCall (String.intercalate "\n\n"
        (s.transcript.map (fun item => formatTime item.time ++ " " ++ item.text)))
        s.memoText = none) :
    ((handleRefineTranscript refineCall s).transcript = s.transcript
      ∧ (handleRefineTranscript refineCall s).summary = s.summary
      ∧ (handleRefineTranscript refineCall s).modalMessage
          = some "AIによる清書中にエラーが発生しました。")
    ∧ ((generateSummary generateCall s).transcript = s.transcript
      ∧ (generateSummary generateCall s).modalMessage
          = some "議事録の生成中にエラーが発生しました。") := by
  have h0 : ¬ s.transcript.length = 0 := by
    simpa [List.length_eq_zero] using hne
  constructor
  · unfold handleRefineTranscript
    simp [h0, hrf]
  · unfold generateSummary
    simp [hplain, hgf]

/-- Witness for C7: one-entry transcript with a memo, both external
calls throwing. -/
theorem refine_summarize_failure_isolated_witness :
    (({ initialState with transcript := [⟨0, "a"⟩], memoText := "m" } : AppState).transcript ≠ [])
    ∧ ((fun (_ : String) (_ : String) => (none : Option String))
        (String.intercalate "\n"
          (({ initialState with transcript := [⟨0, "a"⟩], memoText := "m" } : AppState).transcript.map
            (fun t => t.text)))
        ({ initialState with transcript := [⟨0, "a"⟩], memoText := "m" } : AppState).memoText = none)
    ∧ (¬ (String.intercalate "\n\n"
          (({ initialState with transcript := [⟨0, "a"⟩], memoText := "m" } : AppState).transcript.map
            (fun item => formatTime item.time ++ " " ++ item.text)) = ""
        ∧ ({ initialState with transcript := [⟨0, "a"⟩], memoText := "m" } : AppState).memoText = ""))
    ∧ ((handleRefineTranscript (fun _ _ => none)
          { initialState with transcript := [⟨0, "a"⟩], memoText := "m" }).transcript
            = ({ initialState with transcript := [⟨0, "a"⟩], memoText := "m" } : AppState).transcript
      ∧ (handleRefineTranscript (fun _ _ => none)
          { initialState with transcript := [⟨0, "a"⟩], memoText := "m" }).summary
            = ({ initialState with transcript := [⟨0, "a"⟩], memoText := "m" } : AppState).summary
      ∧ (handleRefineTranscript (fun _ _ => none)
          { initialState with transcript := [⟨0, "a"⟩], memoText := "m" }).modalMessage
            = some "AIによる清書中にエラーが発生しました。")
    ∧ ((generateSummary (fun _ _ => none)
          { initialState with transcript := [⟨0, "a"⟩], memoText := "m" }).transcript
            = ({ initialState with transcript := [⟨0, "a"⟩], memoText := "m" } : AppState).transcript
      ∧ (generateSummary (fun _ _ => none)
          { initialState with transcript := [⟨0, "a"⟩], memoText := "m" }).modalMessage
            = some "議事録の生成中にエラーが発生しました。") :=
  ⟨by decide, rfl, by decide,
    (refine_summarize_failure_isolated (fun _ _ => none) (fun _ _ => none)
      { initialState with transcript := [⟨0, "a"⟩], memoText := "m" }
      (by decide) rfl (by decide) rfl).1,
    (refine_summarize_failure_isolated (fun _ _ => none) (fun _ _ => none)
      { initialState with transcript := [⟨0, "a"⟩], memoText := "m" }
      (by decide) rfl (by decide) rfl).2⟩

/-! ### String facts used for the streaming delta -/

theorem string_take_append_drop (s : String) (n : Nat) : s.take n ++ s.drop n = s := by
  apply String.ext
  simp

theorem string_drop_of_le (s : String) (n : Nat) (h : s.length ≤ n) : s.drop n = "" := by
  apply String.ext
  simp only [String.data_drop]
  exact List.drop_eq_nil_iff.mpr h

theorem trim_empty : "".trim = "" := by
  have haux : Substring.takeWhileAux "" 0 Char.isWhitespace 0 = 0 := by
    rw [Substring.takeWhileAux]
    simp
  have haux2 : Substring.takeRightWhileAux "" 0 Char.isWhitespace 0 = 0 := by
    rw [Substring.takeRightWhileAux]
    simp
  show ("".toSubstring.trim).toString = ""
  simp [String.toSubstring, Substring.trim, haux, haux2, Substring.toString]
  rfl

theorem blobSize_append_ne_zero (l : List AudioFragment) (c : AudioFragment)
    (h : 0 < c.bytes.length) : ¬ blobSize (l ++ [c]) = 0 := by
  simp only [blobSize, List.map_append, List.sum_append, List.map_cons, List.map_nil,
    List.sum_cons, List.sum_nil]
  omega

/-! ### C6 -/

/-- C6: on a successful streaming tick with a non-empty fragment, the
dispatcher sends the entire fragment set accumulated so far (recorded
in `sentPayloads`), computes the appended delta as exactly the
characters of the returned full transcript beyond the length of the
last known full transcript, appends it only if non-blank, and updates
the last known full transcript; when the previous transcript is a
length-`n` prefix of the new one, the previously shown text plus the
delta reassemble the full transcript exactly (no duplication). -/
theorem whole_mode_delta (call : List AudioFragment → String → Option String)
    (eData : AudioFragment) (elapsedTime : ℚ) (s : AppState) (raw : String)
    (hsz : 0 < eData.bytes.length)
    (hcall : call (s.audioChunks ++ [eData]) s.memoText = some raw) :
    (ondataavailable call eData elapsedTime s).sentPayloads
        = s.sentPayloads ++ [s.audioChunks ++ [eData]]
    ∧ (ondataavailable call eData elapsedTime s).lastTranscriptText
        = normalizeTranscription raw
    ∧ (ondataavailable call eData elapsedTime s).transcript
        = s.transcript ++
          (if 0 < ((normalizeTranscription raw).drop s.lastTranscriptText.length).trim.length
           then [{ time := elapsedTime,
                   text := (normalizeTranscription raw).drop s.lastTranscriptText.length }]
           else [])
    ∧ ((normalizeTranscription raw).take s.lastTranscriptText.length = s.lastTranscriptText →
        s.lastTranscriptText ++ (normalizeTranscription raw).drop s.lastTranscriptText.length
          = normalizeTranscription raw) := by
  have hns : ¬ blobSize (s.audioChunks ++ [eData]) = 0 := blobSize_append_ne_zero _ _ hsz
  unfold ondataavailable
  simp only [hsz, if_true, hns, if_false, hcall, transcribeAndIdentifySpeakers]
  by_cases htr :
      0 < ((normalizeTranscription raw).drop s.lastTranscriptText.length).trim.length
  · simp only [htr, if_true]
    refine ⟨trivial, trivial, trivial, ?_⟩
    intro htake
    nth_rewrite 1 [← htake]
    exact string_take_append_drop _ _
  · simp only [htr, if_false]
    refine ⟨trivial, trivial, by simp, ?_⟩
    intro htake
    nth_rewrite 1 [← htake]
    exact string_take_append_drop _ _

/-- Witness for C6: one fragment, empty prior state, external result
`"hello"`. -/
theorem whole_mode_delta_witness :
    (0 < (⟨[7]⟩ : AudioFragment).bytes.length)
    ∧ ((fun (_ : List AudioFragment) (_ : String) => some "hello")
        (initialState.audioChunks ++ [⟨[7]⟩]) initialState.memoText = some "hello")
    ∧ ((ondataavailable (fun _ _ => some "hello") ⟨[7]⟩ 3 initialState).sentPayloads
        = initialState.sentPayloads ++ [initialState.audioChunks ++ [⟨[7]⟩]]
      ∧ (ondataavailable (fun _ _ => some "hello") ⟨[7]⟩ 3 initialState).lastTranscriptText
        = normalizeTranscription "hello"
      ∧ (ondataavailable (fun _ _ => some "hello") ⟨[7]⟩ 3 initialState).transcript
        = initialState.transcript ++
          (if 0 < ((normalizeTranscription "hello").drop
              initialState.lastTranscriptText.length).trim.length
           then [{ time := 3,
                   text := (normalizeTranscription "hello").drop
                     initialState.lastTranscriptText.length }]
           else [])
      ∧ ((normalizeTranscription "hello").take initialState.lastTranscriptText.length
            = initialState.lastTranscriptText →
          initialState.lastTranscriptText ++ (normalizeTranscription "hello").drop
              initialState.lastTranscriptText.length
            = normalizeTranscription "hello")) :=
  ⟨by decide, rfl,
    whole_mode_delta (fun _ _ => some "hello") ⟨[7]⟩ 3 initialState "hello" (by decide) rfl⟩

/-! ### C10 -/

/-- C10: on a successful streaming tick, an entry is appended only when
the computed delta has non-empty trimmed text: a blank delta (in
particular one arising because the new full transcript is no longer
than the last known one) appends nothing and only updates the
last-known-transcript state, and any entry a successful tick does
append has trimmed-non-empty text. -/
theorem streaming_blank_delta_no_entry (call : List AudioFragment → String → Option String)
    (eData : AudioFragment) (elapsedTime : ℚ) (s : AppState) (raw : String)
    (hsz : 0 < eData.bytes.length)
    (hcall : call (s.audioChunks ++ [eData]) s.memoText = some raw) :
    (((normalizeTranscription raw).drop s.lastTranscriptText.length).trim = "" →
        (ondataavailable call eData elapsedTime s).transcript = s.transcript
        ∧ (ondataavailable call eData elapsedTime s).lastTranscriptText
            = normalizeTranscription raw)
    ∧ ((normalizeTranscription raw).length ≤ s.lastTranscriptText.length →
        (ondataavailable call eData elapsedTime s).transcript = s.transcript)
    ∧ (∀ e : TranscriptEntry,
        (ondataavailable call eData elapsedTime s).transcript = s.transcript ++ [e] →
        e.text.trim ≠ "") := by
  have hns : ¬ blobSize (s.audioChunks ++ [eData]) = 0 := blobSize_append_ne_zero _ _ hsz
  unfold ondataavailable
  simp only [hsz, if_true, hns, if_false, hcall, transcribeAndIdentifySpeakers]
  refine ⟨?_, ?_, ?_⟩
  · intro htrim
    have h0 : ¬ 0 < ((normalizeTranscription raw).drop s.lastTranscriptText.length).trim.length := by
      rw [htrim]
      simp [String.length]
    simp [h0]
  · intro hle
    have hdrop : (normalizeTranscription raw).drop s.lastTranscriptText.length = "" :=
      string_drop_of_le _ _ hle
    have h0 : ¬ 0 < ((normalizeTranscription raw).drop s.lastTranscriptText.length).trim.length := by
      rw [hdrop, trim_empty]
      simp [String.length]
    simp [h0]
  · intro e he
    by_cases h0 : 0 < ((normalizeTranscription raw).drop s.lastTranscriptText.length).trim.length
    · simp only [h0, if_true] at he
      have he2 := List.append_cancel_left he
      simp only [List.cons.injEq, and_true] at he2
      intro hcon
      rw [← he2] at hcon
      simp only at hcon
      rw [hcon] at h0
      simp [String.length] at h0
    · simp only [h0, if_false] at he
      exfalso
      have := congrArg List.length he
      simp at this

/-- Witness for C10: one fragment, empty prior state, external result
`"hi"`. -/
theorem streaming_blank_delta_no_entry_witness :
    (0 < (⟨[9]⟩ : AudioFragment).bytes.length)
    ∧ ((fun (_ : List AudioFragment) (_ : String) => some "hi")
        (initialState.audioChunks ++ [⟨[9]⟩]) initialState.memoText = some "hi")
    ∧ ((((normalizeTranscription "hi").drop initialState.lastTranscriptText.length).trim = "" →
        (ondataavailable (fun _ _ => some "hi") ⟨[9]⟩ 2 initialState).transcript
            = initialState.transcript
        ∧ (ondataavailable (fun _ _ => some "hi") ⟨[9]⟩ 2 initialState).lastTranscriptText
            = normalizeTranscription "hi")
      ∧ ((normalizeTranscription "hi").length ≤ initialState.lastTranscriptText.length →
          (ondataavailable (fun _ _ => some "hi") ⟨[9]⟩ 2 initialState).transcript
            = initialState.transcript)
      ∧ (∀ e : TranscriptEntry,
          (ondataavailable (fun _ _ => some "hi") ⟨[9]⟩ 2 initialState).transcript
              = initialState.transcript ++ [e] →
          e.text.trim ≠ "")) :=
  ⟨by decide, rfl,
    streaming_blank_delta_no_entry (fun _ _ => some "hi") ⟨[9]⟩ 2 initialState "hi"
      (by decide) rfl⟩

/-! ### C2 -/

/-- C2: for a positive duration and an all-successful oracle, chunked
dispatch (the file-upload loop and the recovery loop alike) opens
exactly `⌈duration / 60⌉` windows with start offsets `0, 60, 120, …`,
the last truncated at `duration`; every point of `[0, duration)` lies
in exactly one window (no gaps, no overlap), every window is a
non-empty subinterval of `[0, duration]`, and each window's transcript
entry carries the window's start offset as its time. -/
theorem chunked_dispatch_window_coverage (call : ℚ → ℚ → Option String) (f : ℚ → ℚ → String)
    (hcall : ∀ s e, call s e = some (f s e)) (duration : ℚ) (hd : 0 < duration) :
    tracedWindows (handleFileChangeLoop call duration 0).trace
        = (List.range (totalChunks duration)).map (fun (k : Nat) =>
            ((k : ℚ) * chunkSizeInSeconds,
             min ((k : ℚ) * chunkSizeInSeconds + chunkSizeInSeconds) duration))
    ∧ tracedWindows (handleProcessRecoveredDataLoop call duration 0).trace
        = (List.range (totalChunks duration)).map (fun (k : Nat) =>
            ((k : ℚ) * chunkSizeInSeconds,
             min ((k : ℚ) * chunkSizeInSeconds + chunkSizeInSeconds) duration))
    ∧ 0 < totalChunks duration
    ∧ (∀ x : ℚ, 0 ≤ x → x < duration →
        ∃! k : Nat, k < totalChunks duration ∧
          (k : ℚ) * chunkSizeInSeconds ≤ x ∧
          x < min ((k : ℚ) * chunkSizeInSeconds + chunkSizeInSeconds) duration)
    ∧ (∀ w ∈ tracedWindows (handleFileChangeLoop call duration 0).trace,
        0 ≤ w.1 ∧ w.1 < w.2 ∧ w.2 ≤ duration)
    ∧ (handleFileChangeLoop call duration 0).transcript.map TranscriptEntry.time
        = (List.range (totalChunks duration)).map (fun (k : Nat) => (k : ℚ) * chunkSizeInSeconds)
    ∧ (handleProcessRecoveredDataLoop call duration 0).transcript.map TranscriptEntry.time
        = (List.range (totalChunks duration)).map
            (fun (k : Nat) => (k : ℚ) * chunkSizeInSeconds) := by
  have hW : (0:ℚ) < chunkSizeInSeconds := by norm_num [chunkSizeInSeconds]
  have hrem : remainingWindows duration 0 = totalChunks duration :=
    (totalChunks_eq_remainingWindows duration).symm
  have hw1 : tracedWindows (handleFileChangeLoop call duration 0).trace
      = (List.range (totalChunks duration)).map (fun (k : Nat) =>
          ((k : ℚ) * chunkSizeInSeconds,
           min ((k : ℚ) * chunkSizeInSeconds + chunkSizeInSeconds) duration)) := by
    rw [handleFileChangeLoop_trace_closed call f hcall duration (totalChunks duration) 0 hrem]
    rw [tracedWindows_flatten, List.map_map]
    have hmap : (List.range (totalChunks duration)).map
        (tracedWindows ∘ (fun (k : Nat) =>
          [DispatchEvent.callStart (0 + k * chunkSizeInSeconds)
             (min (0 + k * chunkSizeInSeconds + chunkSizeInSeconds) duration),
           DispatchEvent.callReturned (0 + k * chunkSizeInSeconds)]
          ++ if k + 1 < totalChunks duration then [DispatchEvent.delay 5000] else []))
        = (List.range (totalChunks duration)).map (fun (k : Nat) =>
            [((k : ℚ) * chunkSizeInSeconds,
              min ((k : ℚ) * chunkSizeInSeconds + chunkSizeInSeconds) duration)]) := by
      apply List.map_congr_left
      intro k _
      simp only [Function.comp_apply, tracedWindows_fileBlock, zero_add]
    rw [hmap, flatten_map_singleton]
  have hw2 : tracedWindows (handleProcessRecoveredDataLoop call duration 0).trace
      = (List.range (totalChunks duration)).map (fun (k : Nat) =>
          ((k : ℚ) * chunkSizeInSeconds,
           min ((k : ℚ) * chunkSizeInSeconds + chunkSizeInSeconds) duration)) := by
    rw [handleProcessRecoveredDataLoop_trace_closed call f hcall duration
      (totalChunks duration) 0 hrem]
    rw [tracedWindows_flatten, List.map_map]
    have hmap : (List.range (totalChunks duration)).map
        (tracedWindows ∘ (fun (k : Nat) =>
          [DispatchEvent.callStart (0 + k * chunkSizeInSeconds)
             (min (0 + k * chunkSizeInSeconds + chunkSizeInSeconds) duration),
           DispatchEvent.callReturned (0 + k * chunkSizeInSeconds)]))
        = (List.range (totalChunks duration)).map (fun (k : Nat) =>
            [((k : ℚ) * chunkSizeInSeconds,
              min ((k : ℚ) * chunkSizeInSeconds + chunkSizeInSeconds) duration)]) := by
      apply List.map_congr_left
      intro k _
      simp only [Function.comp_apply, tracedWindows_recoveryBlock, zero_add]
    rw [hmap, flatten_map_singleton]
  have hpos : 0 < totalChunks duration := by
    have h1 : (0:ℚ) < duration / chunkSizeInSeconds := div_pos hd hW
    have h2 : (1:ℤ) ≤ ⌈duration / chunkSizeInSeconds⌉ := Int.ceil_pos.mpr h1
    unfold totalChunks
    omega
  refine ⟨hw1, hw2, hpos, ?_, ?_, ?_, ?_⟩
  · intro x hx0 hxd
    exact window_coverage duration x hx0 hxd
  · intro w hw
    rw [hw1] at hw
    obtain ⟨k, hk, rfl⟩ := List.mem_map.mp hw
    have hk2 : k < totalChunks duration := List.mem_range.mp hk
    have hkd : (k : ℚ) * chunkSizeInSeconds < duration := by
      have hki : (k : ℤ) < ⌈duration / chunkSizeInSeconds⌉ := by
        unfold totalChunks at hk2
        omega
      have h1 : ((k : ℤ) : ℚ) ≤ ((⌈duration / chunkSizeInSeconds⌉ : ℤ) : ℚ) - 1 := by
        have : (k : ℤ) ≤ ⌈duration / chunkSizeInSeconds⌉ - 1 := by omega
        exact_mod_cast this
      have h2 : ((⌈duration / chunkSizeInSeconds⌉ : ℤ) : ℚ)
          < duration / chunkSizeInSeconds + 1 := Int.ceil_lt_add_one _
      have h3 : (k : ℚ) < duration / chunkSizeInSeconds := by
        push_cast at h1
        linarith
      exact (lt_div_iff₀ hW).mp h3
    dsimp only
    refine ⟨by positivity, ?_, min_le_right _ _⟩
    exact lt_min (by linarith) hkd
  · rw [handleFileChangeLoop_transcript_closed call f hcall duration
      (totalChunks duration) 0 hrem]
    rw [List.map_map]
    apply List.map_congr_left
    intro k _
    simp
  · rw [handleProcessRecoveredDataLoop_transcript_closed call f hcall duration
      (totalChunks duration) 0 hrem]
    rw [List.map_map]
    apply List.map_congr_left
    intro k _
    simp

/-- Witness for C2: a 150-second input, oracle always returning
`"t"`; three windows `[0,60) [60,120) [120,150)`. -/
theorem chunked_dispatch_window_coverage_witness :
    (∀ s e : ℚ, (fun (_ : ℚ) (_ : ℚ) => some "t") s e
        = some ((fun (_ : ℚ) (_ : ℚ) => "t") s e))
    ∧ (0:ℚ) < 150
    ∧ (tracedWindows (handleFileChangeLoop (fun _ _ => some "t") 150 0).trace
        = (List.range (totalChunks 150)).map (fun (k : Nat) =>
            ((k : ℚ) * chunkSizeInSeconds,
             min ((k : ℚ) * chunkSizeInSeconds + chunkSizeInSeconds) 150))
    ∧ tracedWindows (handleProcessRecoveredDataLoop (fun _ _ => some "t") 150 0).trace
        = (List.range (totalChunks 150)).map (fun (k : Nat) =>
            ((k : ℚ) * chunkSizeInSeconds,
             min ((k : ℚ) * chunkSizeInSeconds + chunkSizeInSeconds) 150))
    ∧ 0 < totalChunks 150
    ∧ (∀ x : ℚ, 0 ≤ x → x < 150 →
        ∃! k : Nat, k < totalChunks 150 ∧
          (k : ℚ) * chunkSizeInSeconds ≤ x ∧
          x < min ((k : ℚ) * chunkSizeInSeconds + chunkSizeInSeconds) 150)
    ∧ (∀ w ∈ tracedWindows (handleFileChangeLoop (fun _ _ => some "t") 150 0).trace,
        0 ≤ w.1 ∧ w.1 < w.2 ∧ w.2 ≤ 150)
    ∧ (handleFileChangeLoop (fun _ _ => some "t") 150 0).transcript.map TranscriptEntry.time
        = (List.range (totalChunks 150)).map (fun (k : Nat) => (k : ℚ) * chunkSizeInSeconds)
    ∧ (handleProcessRecoveredDataLoop (fun _ _ => some "t") 150 0).transcript.map
          TranscriptEntry.time
        = (List.range (totalChunks 150)).map
            (fun (k : Nat) => (k : ℚ) * chunkSizeInSeconds)) :=
  ⟨fun _ _ => rfl, by norm_num,
    chunked_dispatch_window_coverage (fun _ _ => some "t") (fun _ _ => "t")
      (fun _ _ => rfl) 150 (by norm_num)⟩

/-! ### C8 -/

/-- C8: when the external call for window `k` succeeds but returns
empty or whitespace-only text (the source's `!text || text.trim() ===
''` test), the dispatcher still produces an entry for that window, at
the window's start offset, with the fixed placeholder text. -/
theorem empty_result_placeholder (call : ℚ → ℚ → Option String) (f : ℚ → ℚ → String)
    (hcall : ∀ s e, call s e = some (f s e)) (duration : ℚ) (k : Nat)
    (hk : k < totalChunks duration)
    (hempty : f ((k : ℚ) * chunkSizeInSeconds)
        (min ((k : ℚ) * chunkSizeInSeconds + chunkSizeInSeconds) duration) = ""
      ∨ (f ((k : ℚ) * chunkSizeInSeconds)
          (min ((k : ℚ) * chunkSizeInSeconds + chunkSizeInSeconds) duration)).trim = "") :
    (handleFileChangeLoop call duration 0).transcript[k]?
      = some { time := (k : ℚ) * chunkSizeInSeconds, text := silencePlaceholder } := by
  have hrem : remainingWindows duration 0 = totalChunks duration :=
    (totalChunks_eq_remainingWindows duration).symm
  rw [handleFileChangeLoop_transcript_closed call f hcall duration (totalChunks duration) 0 hrem]
  rw [List.getElem?_map]
  simp only [List.getElem?_range, hk, if_true, Option.map_some, zero_add]
  have hnorm : normalizeTranscription (f ((k : ℚ) * chunkSizeInSeconds)
      (min ((k : ℚ) * chunkSizeInSeconds + chunkSizeInSeconds) duration))
      = silencePlaceholder := by
    unfold normalizeTranscription
    rw [if_pos hempty]
  rw [Option.map_some']
  simp only [hnorm]

/-- Witness for C8: a 120-second input whose first window transcribes
to the empty string; entry 0 is the placeholder at offset 0. -/
theorem empty_result_placeholder_witness :
    (∀ s e : ℚ, (fun (s : ℚ) (_ : ℚ) => some (if s = 0 then "" else "x")) s e
        = some ((fun (s : ℚ) (_ : ℚ) => if s = 0 then "" else "x") s e))
    ∧ 0 < totalChunks 120
    ∧ ((fun (s : ℚ) (_ : ℚ) => if s = 0 then "" else "x") ((0 : Nat) * chunkSizeInSeconds)
          (min (((0 : Nat) : ℚ) * chunkSizeInSeconds + chunkSizeInSeconds) 120) = ""
        ∨ ((fun (s : ℚ) (_ : ℚ) => if s = 0 then "" else "x") (((0 : Nat) : ℚ) * chunkSizeInSeconds)
          (min (((0 : Nat) : ℚ) * chunkSizeInSeconds + chunkSizeInSeconds) 120)).trim = "")
    ∧ (handleFileChangeLoop (fun s _ => some (if s = 0 then "" else "x")) 120 0).transcript[(0 : Nat)]?
        = some { time := ((0 : Nat) : ℚ) * chunkSizeInSeconds, text := silencePlaceholder } :=
  ⟨fun _ _ => rfl,
   by norm_num [totalChunks, chunkSizeInSeconds],
   Or.inl (by norm_num),
   empty_result_placeholder (fun s _ => some (if s = 0 then "" else "x"))
     (fun s _ => if s = 0 then "" else "x") (fun _ _ => rfl) 120 0
     (by norm_num [totalChunks, chunkSizeInSeconds]) (Or.inl (by norm_num))⟩

/-! ### C9 -/

/-- C9 (amended): with every call succeeding, both chunked dispatch
loops process the windows strictly sequentially in increasing time
order — the trace is exactly the concatenation, window by window, of
that window's call-start and call-return — and the fixed 5000 ms pause
between consecutive window calls (none after the last) is present only
in the file-upload path; the recovery-resume path has no inter-call
pause at all. -/
theorem sequential_dispatch_pacing (call : ℚ → ℚ → Option String) (f : ℚ → ℚ → String)
    (hcall : ∀ s e, call s e = some (f s e)) (duration : ℚ) :
    (handleFileChangeLoop call duration 0).trace
      = ((List.range (totalChunks duration)).map (fun (k : Nat) =>
          [DispatchEvent.callStart ((k : ℚ) * chunkSizeInSeconds)
             (min ((k : ℚ) * chunkSizeInSeconds + chunkSizeInSeconds) duration),
           DispatchEvent.callReturned ((k : ℚ) * chunkSizeInSeconds)]
          ++ if k + 1 < totalChunks duration
             then [DispatchEvent.delay 5000] else [])).flatten
    ∧ (handleProcessRecoveredDataLoop call duration 0).trace
      = ((List.range (totalChunks duration)).map (fun (k : Nat) =>
          [DispatchEvent.callStart ((k : ℚ) * chunkSizeInSeconds)
             (min ((k : ℚ) * chunkSizeInSeconds + chunkSizeInSeconds) duration),
           DispatchEvent.callReturned ((k : ℚ) * chunkSizeInSeconds)])).flatten
    ∧ DispatchEvent.delay 5000 ∉ (handleProcessRecoveredDataLoop call duration 0).trace := by
  have hrem : remainingWindows duration 0 = totalChunks duration :=
    (totalChunks_eq_remainingWindows duration).symm
  have h2 : (handleProcessRecoveredDataLoop call duration 0).trace
      = ((List.range (totalChunks duration)).map (fun (k : Nat) =>
          [DispatchEvent.callStart ((k : ℚ) * chunkSizeInSeconds)
             (min ((k : ℚ) * chunkSizeInSeconds + chunkSizeInSeconds) duration),
           DispatchEvent.callReturned ((k : ℚ) * chunkSizeInSeconds)])).flatten := by
    rw [handleProcessRecoveredDataLoop_trace_closed call f hcall duration
      (totalChunks duration) 0 hrem]
    congr 1
    apply List.map_congr_left
    intro k _
    simp
  refine ⟨?_, h2, ?_⟩
  · rw [handleFileChangeLoop_trace_closed call f hcall duration (totalChunks duration) 0 hrem]
    congr 1
    apply List.map_congr_left
    intro k _
    simp
  · intro hmem
    rw [h2] at hmem
    rw [List.mem_flatten] at hmem
    obtain ⟨l, hl, hml⟩ := hmem
    obtain ⟨k, _, rfl⟩ := List.mem_map.mp hl
    simp at hml

/-- Counterexample for C9 as stated: a 120-second recovery-resume
dispatch has two windows, yet its trace contains no pause event at all
— the 5-second inter-call delay exists only in the file-upload path. -/
theorem recovery_no_delay_counterexample :
    (handleProcessRecoveredDataLoop (fun _ _ => some "x") 120 0).trace
      = [DispatchEvent.callStart 0 60, DispatchEvent.callReturned 0,
         DispatchEvent.callStart 60 120, DispatchEvent.callReturned 60]
    ∧ DispatchEvent.delay 5000
        ∉ (handleProcessRecoveredDataLoop (fun _ _ => some "x") 120 0).trace := by
  have h1 : (0:ℚ) < 120 := by norm_num
  have h2 : (0:ℚ) + chunkSizeInSeconds < 120 := by norm_num [chunkSizeInSeconds]
  have h3 : ¬ ((0:ℚ) + chunkSizeInSeconds + chunkSizeInSeconds < 120) := by
    norm_num [chunkSizeInSeconds]
  have htr : (handleProcessRecoveredDataLoop (fun _ _ => some "x") 120 0).trace
      = [DispatchEvent.callStart 0 60, DispatchEvent.callReturned 0,
         DispatchEvent.callStart 60 120, DispatchEvent.callReturned 60] := by
    rw [handleProcessRecoveredDataLoop_step _ h1 rfl]
    rw [handleProcessRecoveredDataLoop_step _ h2 rfl]
    rw [handleProcessRecoveredDataLoop_stop _ h3]
    norm_num [chunkSizeInSeconds, min_def]
  refine ⟨htr, ?_⟩
  rw [htr]
  simp

/-- Witness for the amended C9: 120-second input, all calls succeed. -/
theorem sequential_dispatch_pacing_witness :
    (∀ s e : ℚ, (fun (_ : ℚ) (_ : ℚ) => some "x") s e
        = some ((fun (_ : ℚ) (_ : ℚ) => "x") s e))
    ∧ ((handleFileChangeLoop (fun _ _ => some "x") 120 0).trace
      = ((List.range (totalChunks 120)).map (fun (k : Nat) =>
          [DispatchEvent.callStart ((k : ℚ) * chunkSizeInSeconds)
             (min ((k : ℚ) * chunkSizeInSeconds + chunkSizeInSeconds) 120),
           DispatchEvent.callReturned ((k : ℚ) * chunkSizeInSeconds)]
          ++ if k + 1 < totalChunks 120
             then [DispatchEvent.delay 5000] else [])).flatten
    ∧ (handleProcessRecoveredDataLoop (fun _ _ => some "x") 120 0).trace
      = ((List.range (totalChunks 120)).map (fun (k : Nat) =>
          [DispatchEvent.callStart ((k : ℚ) * chunkSizeInSeconds)
             (min ((k : ℚ) * chunkSizeInSeconds + chunkSizeInSeconds) 120),
           DispatchEvent.callReturned ((k : ℚ) * chunkSizeInSeconds)])).flatten
    ∧ DispatchEvent.delay 5000
        ∉ (handleProcessRecoveredDataLoop (fun _ _ => some "x") 120 0).trace) :=
  ⟨fun _ _ => rfl,
    sequential_dispatch_pacing (fun _ _ => some "x") (fun _ _ => "x") (fun _ _ => rfl) 120⟩

/-! ### C1 -/

/-- C1 (corrected): in chunked-by-duration dispatch an external failure
for window `k` is *not* isolated: the whole dispatch aborts — the
transcript keeps the correct entries for windows `0 … k-1` at their
start offsets, no placeholder entry is produced for window `k`, later
windows are never dispatched, and the operation reports failure.  Only
the streaming tick path converts a thrown call into a placeholder
`[エラー]` entry at the current elapsed time and carries on. -/
theorem chunked_failure_aborts (call : ℚ → ℚ → Option String) (f : ℚ → ℚ → String)
    (duration : ℚ) (k : Nat)
    (hsucc : ∀ j : Nat, j < k → call ((j : ℚ) * chunkSizeInSeconds)
        (min ((j : ℚ) * chunkSizeInSeconds + chunkSizeInSeconds) duration)
        = some (f ((j : ℚ) * chunkSizeInSeconds)
            (min ((j : ℚ) * chunkSizeInSeconds + chunkSizeInSeconds) duration)))
    (hfail : call ((k : ℚ) * chunkSizeInSeconds)
        (min ((k : ℚ) * chunkSizeInSeconds + chunkSizeInSeconds) duration) = none)
    (hlt : (k : ℚ) * chunkSizeInSeconds < duration) :
    (handleFileChangeLoop call duration 0).transcript
        = (List.range k).map (fun (j : Nat) =>
            { time := (j : ℚ) * chunkSizeInSeconds,
              text := normalizeTranscription
                (f ((j : ℚ) * chunkSizeInSeconds)
                   (min ((j : ℚ) * chunkSizeInSeconds + chunkSizeInSeconds) duration)) })
    ∧ (handleFileChangeLoop call duration 0).ok = false
    ∧ (∀ (scall : List AudioFragment → String → Option String) (eData : AudioFragment)
        (elapsedTime : ℚ) (s : AppState), 0 < eData.bytes.length →
        scall (s.audioChunks ++ [eData]) s.memoText = none →
        (ondataavailable scall eData elapsedTime s).transcript
          = s.transcript ++ [{ time := elapsedTime, text := "[エラー]" }]) := by
  obtain ⟨hT, hOk⟩ := handleFileChangeLoop_abort_closed call f duration k 0
    (by intro j hj; simpa using hsucc j hj)
    (by simpa using hfail)
    (by simpa using hlt)
  refine ⟨?_, hOk, ?_⟩
  · rw [hT]
    apply List.map_congr_left
    intro j _
    simp
  · intro scall eData elapsedTime s hsz hnone
    have hns : ¬ blobSize (s.audioChunks ++ [eData]) = 0 := blobSize_append_ne_zero _ _ hsz
    unfold ondataavailable
    simp [hsz, hns, hnone, transcribeAndIdentifySpeakers]

/-- Counterexample for C1 as stated: a 120-second input whose window 0
call fails while window 1 would succeed.  The claim predicts one
placeholder entry at offset 0 and a correct entry at offset 60; the
code instead aborts with an empty transcript — in particular no entry
at offset 60 exists. -/
theorem partial_failure_isolation_counterexample :
    (handleFileChangeLoop (fun s _ => if s = 0 then none else some "x") 120 0).transcript = []
    ∧ (handleFileChangeLoop (fun s _ => if s = 0 then none else some "x") 120 0).ok = false
    ∧ ¬ (∃ en ∈ (handleFileChangeLoop (fun s _ => if s = 0 then none else some "x")
          120 0).transcript, en.time = 60) := by
  have h1 : (0:ℚ) < 120 := by norm_num
  have hc : (fun (s : ℚ) (_ : ℚ) => if s = 0 then (none : Option String) else some "x") 0
      (min (0 + chunkSizeInSeconds) 120) = none := by norm_num
  rw [handleFileChangeLoop_abort _ h1 hc]
  refine ⟨rfl, rfl, by simp⟩

/-- Witness for the amended C1: 180-second input, window 1 (of 3)
fails; only window 0's entry survives and the operation aborts. -/
theorem chunked_failure_aborts_witness :
    (∀ j : Nat, j < 1 → (fun (s : ℚ) (_ : ℚ) => if s = 60 then none else some "x")
        ((j : ℚ) * chunkSizeInSeconds)
        (min ((j : ℚ) * chunkSizeInSeconds + chunkSizeInSeconds) 180)
        = some ((fun (_ : ℚ) (_ : ℚ) => "x") ((j : ℚ) * chunkSizeInSeconds)
            (min ((j : ℚ) * chunkSizeInSeconds + chunkSizeInSeconds) 180)))
    ∧ ((fun (s : ℚ) (_ : ℚ) => if s = 60 then none else some "x")
        (((1 : Nat) : ℚ) * chunkSizeInSeconds)
        (min (((1 : Nat) : ℚ) * chunkSizeInSeconds + chunkSizeInSeconds) 180) = none)
    ∧ (((1 : Nat) : ℚ) * chunkSizeInSeconds < 180)
    ∧ ((handleFileChangeLoop (fun s _ => if s = 60 then none else some "x") 180 0).transcript
        = (List.range 1).map (fun (j : Nat) =>
            { time := (j : ℚ) * chunkSizeInSeconds,
              text := normalizeTranscription
                ((fun (_ : ℚ) (_ : ℚ) => "x") ((j : ℚ) * chunkSizeInSeconds)
                   (min ((j : ℚ) * chunkSizeInSeconds + chunkSizeInSeconds) 180)) })
    ∧ (handleFileChangeLoop (fun s _ => if s = 60 then none else some "x") 180 0).ok = false
    ∧ (∀ (scall : List AudioFragment → String → Option String) (eData : AudioFragment)
        (elapsedTime : ℚ) (s : AppState), 0 < eData.bytes.length →
        scall (s.audioChunks ++ [eData]) s.memoText = none →
        (ondataavailable scall eData elapsedTime s).transcript
          = s.transcript ++ [{ time := elapsedTime, text := "[エラー]" }])) :=
  ⟨by
      intro j hj
      have hj0 : j = 0 := by omega
      subst hj0
      norm_num [chunkSizeInSeconds],
   by norm_num [chunkSizeInSeconds],
   by norm_num [chunkSizeInSeconds],
   chunked_failure_aborts (fun s _ => if s = 60 then none else some "x") (fun _ _ => "x")
     180 1
     (by
       intro j hj
       have hj0 : j = 0 := by omega
       subst hj0
       norm_num [chunkSizeInSeconds])
     (by norm_num [chunkSizeInSeconds])
     (by norm_num [chunkSizeInSeconds])⟩
